import Mathlib

/-!
Shallow embedding of `src/dotenv-azure.ts` (the `DotenvAzure` class of the
`dotenv-azure` package).

Modelling conventions:
* A JavaScript object with string keys is an association list; a later binding
  shadows an earlier one, which is the lookup semantics of JS property
  assignment and of object spread.  `setObj` models `o[k] = v`, `spreadObj a b`
  models the object literal built by spreading `a` and then `b`.
* A JavaScript value of TypeScript type `string | undefined` is an
  `Option String` (`none` = `undefined`).  A `VariablesObject` therefore maps a
  key either to nothing (key absent) or to an `Option String` (the stored,
  possibly `undefined`, value).
* External collaborators (the `JSON.parse`/`new URL` platform primitives, the
  App Configuration store client and the Key Vault secret client) are oracles
  passed in as plain functions; promises are collapsed to their settled
  results, a rejected promise becoming `Except.error`.
* `console.warn` and `populateProcessEnv` are effects on sinks outside the
  data model and have no observable influence on any return value; they are
  not modelled.
-/

namespace DotenvAzure

/-- Left-biased choice on options: the first operand when it is `some`,
otherwise the second.  Used to state lookup facts about shadowing. -/
def orElseO {α : Type} : Option α → Option α → Option α
  | some v, _ => some v
  | none, b => b

/-- A JavaScript object with string keys, as an insertion sequence of
bindings; a later binding shadows an earlier one. -/
abbrev JSObj (α : Type) : Type := List (String × α)

/-- Property lookup `o[k]`: the value of the latest binding of `k`, if any. -/
def getObj {α : Type} : JSObj α → String → Option α
  | [], _ => none
  | p :: rest, k => orElseO (getObj rest k) (if p.1 = k then some p.2 else none)

/-- Property assignment `o[k] = v` (as the resulting object). -/
def setObj {α : Type} (o : JSObj α) (k : String) (v : α) : JSObj α :=
  o ++ [(k, v)]

/-- The object literal spreading `a` then `b`: bindings of `b` shadow
bindings of `a`. -/
def spreadObj {α : Type} (a b : JSObj α) : JSObj α :=
  a ++ b

/-- A `VariablesObject` of the source: string keys, values of TypeScript type
`string | undefined`. -/
abbrev VariablesObject : Type := JSObj (Option String)

/-- Property access flattened to a `string | undefined` result: an absent key
reads as `undefined`. -/
def jsProp (o : VariablesObject) (k : String) : Option String :=
  match getObj o k with
  | none => none
  | some v => v

/-- Truthiness of a `string | undefined` value: `undefined` and the empty
string are falsy. -/
def truthy : Option String → Bool
  | none => false
  | some s => !(s = "")

/-- The JS expression `a \|\| b` on `string | undefined` values. -/
def jsOr (a b : Option String) : Option String :=
  if truthy a then a else b

/-- One entry yielded by `client.listConfigurationSettings()`: the fields of
`ConfigurationSetting` the source reads. -/
structure ConfigurationSetting where
  key : String
  value : Option String
  contentType : Option String
  deriving DecidableEq

/-- The result of `new URL(s)`: the fields the source reads. -/
structure URLModel where
  href : String
  origin : String
  pathname : String
  deriving DecidableEq

/-- The decoded Key Vault reference of the source's `KeyVaultReferenceInfo`. -/
structure KeyVaultReferenceInfo where
  vaultUrl : URLModel
  secretUrl : URLModel
  secretName : String
  secretVersion : Option String
  deriving DecidableEq

/-- The typed errors thrown by the class (`./errors`). -/
inductive DotenvAzureError where
  | missingAppConfigCredentials : DotenvAzureError
  | invalidKeyVaultUrl : String → DotenvAzureError
  deriving DecidableEq

/-- The source's `AzureCredentials`: the App Configuration connection string. -/
structure AzureCredentials where
  connectionString : String
  deriving DecidableEq

/-- The two JS platform primitives the reference decoder calls.
`jsonUri s` is the string value of `JSON.parse(s).uri` when `s` parses as JSON
whose `uri` field is a usable string, and `none` when that compound expression
throws or yields `undefined`; `urlParse s` is `new URL(s)`, `none` when the
constructor throws. -/
structure JsRuntime where
  jsonUri : String → Option String
  urlParse : String → Option URLModel

/-- The remote collaborators: the App Configuration store (listing keyed by the
connection string the client was built from) and the Key Vault secret client
(`getSecret` keyed by vault href, secret name and optional version; `error`
models a rejected promise carrying the error message). -/
structure AzureWorld where
  listConfigurationSettings : String → List ConfigurationSetting
  getSecret : String → String → Option String → Except String (Option String)

/-- The constructor options `DotenvAzureOptions`. -/
structure DotenvAzureOptions where
  rateLimit : Option ℕ := none
  tenantId : Option String := none
  clientId : Option String := none
  clientSecret : Option String := none
  connectionString : Option String := none

/-- The private fields of a constructed `DotenvAzure` instance. -/
structure DotenvAzureState where
  keyVaultRateLimitMinTime : ℤ
  connectionString : Option String
  tenantId : Option String
  clientId : Option String
  clientSecret : Option String
  deriving DecidableEq

/-- The constructor: `rateLimit` defaults to 45 and
`this.keyVaultRateLimitMinTime = Math.ceil(1000 / rateLimit)`. -/
def mkDotenvAzure (opts : DotenvAzureOptions) : DotenvAzureState :=
  let rateLimit : ℕ := opts.rateLimit.getD 45
  { keyVaultRateLimitMinTime := Int.ceil ((1000 : ℚ) / (rateLimit : ℚ)),
    connectionString := opts.connectionString,
    tenantId := opts.tenantId,
    clientId := opts.clientId,
    clientSecret := opts.clientSecret }

/-- The method `getAzureCredentials`: overlay `process.env` on the dotenv
variables, then `this.connectionString \|\| vars.AZURE_APP_CONFIG_CONNECTION_STRING`,
throwing `MissingAppConfigCredentialsError` when the result is falsy. -/
def getAzureCredentials (st : DotenvAzureState) (dotenvVars : VariablesObject)
    (processEnv : VariablesObject) : Except DotenvAzureError AzureCredentials :=
  let vars := spreadObj dotenvVars processEnv
  let connectionString :=
    jsOr st.connectionString (jsProp vars "AZURE_APP_CONFIG_CONNECTION_STRING")
  match connectionString with
  | none => .error .missingAppConfigCredentials
  | some s => if s = "" then .error .missingAppConfigCredentials else .ok ⟨s⟩

/-- Splitting a character sequence at every occurrence of `sep`, JS
`String.prototype.split` style: no segment is ever dropped, so the empty
sequence yields one empty segment. -/
def splitChars (sep : Char) : List Char → List (List Char)
  | [] => [[]]
  | c :: rest =>
    let r := splitChars sep rest
    if c = sep then [] :: r
    else (c :: r.headD []) :: r.tail

/-- The JS expression `s.split('/')`. -/
def splitSlash (s : String) : List String :=
  (splitChars '/' s.toList).map (fun cs => String.mk cs)

/-- The method `isKeyVaultReference`: a strict string comparison of the
entry's content type against the fixed sentinel. -/
def isKeyVaultReference (c : ConfigurationSetting) : Bool :=
  c.contentType == some "application/vnd.microsoft.appconfig.keyvaultref+json;charset=utf-8"

/-- The method `getKeyVaultReferenceInfo`: parse the value as JSON, read its
`uri` field, parse that as a URL, split the pathname on `/` (the third segment
is the secret name, the optional fourth the version), and reparse the origin;
any failure in the `try` block becomes `InvalidKeyVaultUrlError(key)`. -/
def getKeyVaultReferenceInfo (pf : JsRuntime) (c : ConfigurationSetting) :
    Except DotenvAzureError KeyVaultReferenceInfo :=
  match c.value with
  | none => .error (.invalidKeyVaultUrl c.key)
  | some v =>
    if v = "" then .error (.invalidKeyVaultUrl c.key)
    else
      match pf.jsonUri v with
      | none => .error (.invalidKeyVaultUrl c.key)
      | some uri =>
        match pf.urlParse uri with
        | none => .error (.invalidKeyVaultUrl c.key)
        | some keyVaultUrl =>
          let segs := splitSlash keyVaultUrl.pathname
          match segs[2]? with
          | none => .error (.invalidKeyVaultUrl c.key)
          | some secretName =>
            if secretName = "" then .error (.invalidKeyVaultUrl c.key)
            else
              match pf.urlParse keyVaultUrl.origin with
              | none => .error (.invalidKeyVaultUrl c.key)
              | some vaultUrl =>
                .ok { vaultUrl := vaultUrl, secretUrl := keyVaultUrl,
                      secretName := secretName, secretVersion := segs[3]? }

/-- The partitioned result of `getAppConfigurations`. -/
structure AppConfigurations where
  appConfigVars : VariablesObject
  keyVaultReferences : JSObj KeyVaultReferenceInfo
  deriving DecidableEq

/-- The body of the `for await` loop of `getAppConfigurations`, for one
enumerated entry. -/
def processSetting (pf : JsRuntime) (acc : AppConfigurations)
    (c : ConfigurationSetting) : Except DotenvAzureError AppConfigurations :=
  if isKeyVaultReference c then
    match getKeyVaultReferenceInfo pf c with
    | .error e => .error e
    | .ok info => .ok ⟨acc.appConfigVars, setObj acc.keyVaultReferences c.key info⟩
  else
    .ok ⟨setObj acc.appConfigVars c.key c.value, acc.keyVaultReferences⟩

/-- The `for await` loop of `getAppConfigurations` over the remaining
entries. -/
def appConfigLoop (pf : JsRuntime) :
    AppConfigurations → List ConfigurationSetting →
    Except DotenvAzureError AppConfigurations
  | acc, [] => .ok acc
  | acc, c :: rest =>
    match processSetting pf acc c with
    | .error e => .error e
    | .ok acc2 => appConfigLoop pf acc2 rest

/-- The method `getAppConfigurations`: partition the enumerated entries into
plain values and decoded Key Vault references. -/
def getAppConfigurations (pf : JsRuntime) (entries : List ConfigurationSetting) :
    Except DotenvAzureError AppConfigurations :=
  appConfigLoop pf ⟨[], []⟩ entries

/-- The resolution loop of `getSecretsFromKeyVault`: one `getSecret` call per
reference, accumulating into the `secrets` object; a rejected fetch rejects
the whole phase (`Promise.all`). -/
def secretsLoop (world : AzureWorld) :
    JSObj KeyVaultReferenceInfo → VariablesObject → Except String VariablesObject
  | [], secrets => .ok secrets
  | p :: rest, secrets =>
    match world.getSecret p.2.vaultUrl.href p.2.secretName p.2.secretVersion with
    | .error e => .error e
    | .ok v => secretsLoop world rest (setObj secrets p.1 v)

/-- The method `getSecretsFromKeyVault`.  The Bottleneck limiter only spaces
request initiations in time and the per-origin client registry only reuses
connections; neither changes any settled value, so they are not part of the
value-level model. -/
def getSecretsFromKeyVault (world : AzureWorld) (vars : JSObj KeyVaultReferenceInfo) :
    Except String VariablesObject :=
  secretsLoop world vars []

/-- The method `loadFromAzure`: resolve credentials, fetch and partition the
remote entries, try to resolve the secrets — swallowing any failure of that
phase (with a console warning) and keeping an empty secrets object — and
return the spread of plain values then secrets. -/
def loadFromAzure (pf : JsRuntime) (world : AzureWorld) (st : DotenvAzureState)
    (processEnv : VariablesObject) (dotenvVars : Option VariablesObject) :
    Except DotenvAzureError VariablesObject :=
  match getAzureCredentials st (dotenvVars.getD []) processEnv with
  | .error e => .error e
  | .ok credentials =>
    match getAppConfigurations pf (world.listConfigurationSettings credentials.connectionString) with
    | .error e => .error e
    | .ok configs =>
      let keyVaultSecrets : VariablesObject :=
        match getSecretsFromKeyVault world configs.keyVaultReferences with
        | .ok secrets => secrets
        | .error _ => []
      .ok (spreadObj configs.appConfigVars keyVaultSecrets)

/-- The value-relevant part of the record returned by `config`. -/
structure DotenvAzureConfigOutput where
  parsed : VariablesObject
  azure : VariablesObject
  deriving DecidableEq

/-- The method `config`: run dotenv (its `parsed` output is the oracle
argument `dotenvParsed`, `none` when `dotenv.config` reported an error and
parsed nothing), load from Azure, join with local values shadowing remote
ones, then optionally run the safe-mode validation (`validateFromEnvExample`,
an external set-difference check abstracted as the `validation` oracle). -/
def config (pf : JsRuntime) (world : AzureWorld) (st : DotenvAzureState)
    (processEnv : VariablesObject) (safe : Bool)
    (dotenvParsed : Option VariablesObject)
    (validation : Except DotenvAzureError Unit) :
    Except DotenvAzureError DotenvAzureConfigOutput :=
  match loadFromAzure pf world st processEnv dotenvParsed with
  | .error e => .error e
  | .ok azureVars =>
    let joinedVars := spreadObj azureVars (dotenvParsed.getD [])
    match (if safe then validation else .ok ()) with
    | .error e => .error e
    | .ok _ => .ok ⟨joinedVars, azureVars⟩

/-- The method `parse`: run `dotenv.parse` on the given source text, load from
Azure, and return the join with local values shadowing remote ones. -/
def parse (pf : JsRuntime) (world : AzureWorld) (st : DotenvAzureState)
    (processEnv : VariablesObject) (dotenvParse : String → VariablesObject)
    (src : String) : Except DotenvAzureError VariablesObject :=
  let dotenvVars := dotenvParse src
  match loadFromAzure pf world st processEnv (some dotenvVars) with
  | .error e => .error e
  | .ok azureVars => .ok (spreadObj azureVars dotenvVars)

/-- Decidable equality of settled promise results, used to evaluate the
witnesses. -/
instance {ε α : Type} [DecidableEq ε] [DecidableEq α] : DecidableEq (Except ε α) :=
  fun a b =>
    match a, b with
    | .error x, .error y =>
      if h : x = y then .isTrue (congrArg Except.error h)
      else .isFalse (fun hc => h (Except.error.inj hc))
    | .ok x, .ok y =>
      if h : x = y then .isTrue (congrArg Except.ok h)
      else .isFalse (fun hc => h (Except.ok.inj hc))
    | .error _, .ok _ => .isFalse (fun hc => Except.noConfusion hc)
    | .ok _, .error _ => .isFalse (fun hc => Except.noConfusion hc)

/-! Lookup lemmas for the JS-object model. -/

theorem orElseO_none_right {α : Type} (a : Option α) : orElseO a none = a := by
  cases a <;> rfl

theorem orElseO_assoc {α : Type} (a b c : Option α) :
    orElseO (orElseO a b) c = orElseO a (orElseO b c) := by
  cases a <;> rfl

theorem isSome_orElseO {α : Type} (a b : Option α) :
    (orElseO a b).isSome = (a.isSome || b.isSome) := by
  cases a <;> rfl

theorem getObj_append {α : Type} (a b : JSObj α) (k : String) :
    getObj (a ++ b) k = orElseO (getObj b k) (getObj a k) := by
  induction a with
  | nil => simp [getObj, orElseO_none_right]
  | cons p a ih => simp [getObj, ih, orElseO_assoc]

theorem getObj_spreadObj {α : Type} (a b : JSObj α) (k : String) :
    getObj (spreadObj a b) k = orElseO (getObj b k) (getObj a k) :=
  getObj_append a b k

theorem getObj_setObj {α : Type} (o : JSObj α) (k : String) (v : α) (k2 : String) :
    getObj (setObj o k v) k2 = if k = k2 then some v else getObj o k2 := by
  rw [setObj, getObj_append]
  simp only [getObj, orElseO_none_right]
  split <;> simp [orElseO]

theorem isSome_getObj_iff_mem {α : Type} (o : JSObj α) (k : String) :
    (getObj o k).isSome = true ↔ k ∈ o.map Prod.fst := by
  induction o with
  | nil => simp [getObj]
  | cons p rest ih =>
    simp only [getObj, isSome_orElseO, List.map_cons, List.mem_cons, Bool.or_eq_true, ih]
    constructor
    · rintro (h | h)
      · exact Or.inr h
      · left
        by_cases hk : p.1 = k
        · exact hk.symm
        · simp [hk] at h
    · rintro (h | h)
      · right
        simp [h]
      · exact Or.inl h

/-! Concrete platform and world instances used by the witnesses and
counterexamples. -/

/-- The exact content-type sentinel of the source. -/
def keyVaultContentType : String :=
  "application/vnd.microsoft.appconfig.keyvaultref+json;charset=utf-8"

/-- Platform oracle for `JSON.parse(s).uri` on the concrete values used in the
witnesses: a finite table. -/
def demoJsonUri (s : String) : Option String :=
  if s = "\x7b\"uri\":\"https://v.vault.azure.net/secrets/s\"\x7d" then
    some "https://v.vault.azure.net/secrets/s"
  else none

/-- Platform oracle for `new URL` on the concrete strings used in the
witnesses: a finite table closed under taking origins. -/
def demoUrlParse (s : String) : Option URLModel :=
  if s = "https://v.vault.azure.net/secrets/s" then
    some ⟨"https://v.vault.azure.net/secrets/s", "https://v.vault.azure.net", "/secrets/s"⟩
  else if s = "https://v.vault.azure.net" then
    some ⟨"https://v.vault.azure.net/", "https://v.vault.azure.net", "/"⟩
  else none

/-- Demo JS runtime bundling the two table oracles. -/
def demoRuntime : JsRuntime := ⟨demoJsonUri, demoUrlParse⟩

/-- Demo instance state: constructed with `connectionString = "cs"`. -/
def demoState : DotenvAzureState := ⟨23, some "cs", none, none, none⟩

/-- A world whose store is empty and whose vault rejects everything. -/
def emptyWorld : AzureWorld := ⟨fun _ => [], fun _ _ _ => .error "offline"⟩

/-- A well-formed reference entry pointing at secret `s` of the demo vault. -/
def refEntry : ConfigurationSetting :=
  ⟨"C", some "\x7b\"uri\":\"https://v.vault.azure.net/secrets/s\"\x7d",
    some "application/vnd.microsoft.appconfig.keyvaultref+json;charset=utf-8"⟩

/-- A plain (non-reference) entry. -/
def plainEntry : ConfigurationSetting := ⟨"B", some "2", none⟩

/-- The decoded reference the demo runtime produces for `refEntry`. -/
def demoInfo : KeyVaultReferenceInfo :=
  ⟨⟨"https://v.vault.azure.net/", "https://v.vault.azure.net", "/"⟩,
   ⟨"https://v.vault.azure.net/secrets/s", "https://v.vault.azure.net", "/secrets/s"⟩,
   "s", none⟩

/-- A world with one plain entry and one reference entry whose vault is fully
unreachable. -/
def downWorld : AzureWorld :=
  ⟨fun _ => [plainEntry, refEntry], fun _ _ _ => .error "vault unreachable"⟩

/-! Claim theorems. -/

/-- C1: for every local mapping, plain-remote mapping and resolved-secrets
mapping, and for every key present in the local mapping, the merged result
returned by `config` and `parse` maps that key to the local value, regardless
of what the remote or secret mappings hold for that key. -/
theorem config_parse_local_precedence
    (pf : JsRuntime) (world : AzureWorld) (st : DotenvAzureState)
    (processEnv : VariablesObject) (safe : Bool)
    (validation : Except DotenvAzureError Unit)
    (dotenvVars : VariablesObject) (k : String) (v : Option String)
    (hk : getObj dotenvVars k = some v) :
    (∀ out, config pf world st processEnv safe (some dotenvVars) validation = .ok out →
      getObj out.parsed k = some v) ∧
    (∀ dotenvParse src m, dotenvParse src = dotenvVars →
      parse pf world st processEnv dotenvParse src = .ok m →
      getObj m k = some v) := by
  have hspread : ∀ a : VariablesObject, getObj (spreadObj a dotenvVars) k = some v := by
    intro a
    rw [getObj_spreadObj, hk]
    rfl
  constructor
  · intro out hout
    unfold config at hout
    cases hload : loadFromAzure pf world st processEnv (some dotenvVars) with
    | error e => rw [hload] at hout; exact absurd hout (by simp)
    | ok azureVars =>
      rw [hload] at hout
      cases hval : (if safe then validation else Except.ok ()) with
      | error e => rw [hval] at hout; exact absurd hout (by simp)
      | ok u =>
        rw [hval] at hout
        simp only [Except.ok.injEq] at hout
        rw [← hout]
        exact hspread azureVars
  · intro dotenvParse src m hsrc hm
    unfold parse at hm
    rw [hsrc] at hm
    cases hload : loadFromAzure pf world st processEnv (some dotenvVars) with
    | error e => simp [hload] at hm
    | ok azureVars =>
      simp only [hload, Except.ok.injEq] at hm
      rw [← hm]
      exact hspread azureVars

/-- C1 witness: concrete successful `config` run with local value `A=1`. -/
theorem config_parse_local_precedence_witness :
    getObj (DotenvAzureConfigOutput.mk [("A", some "1")] []).parsed "A" = some (some "1") :=
  (config_parse_local_precedence demoRuntime emptyWorld demoState [] false (.ok ())
      [("A", some "1")] "A" (some "1") rfl).1 ⟨[("A", some "1")], []⟩ rfl

/-- C2: when the secret-resolution phase fails as a whole, `loadFromAzure`
does not raise: it returns exactly the plain remote values, the secrets
contribution staying empty (the `console.warn` report is a sink effect outside
the value model). -/
theorem loadFromAzure_vault_failure
    (pf : JsRuntime) (world : AzureWorld) (st : DotenvAzureState)
    (processEnv : VariablesObject) (dotenvVars : Option VariablesObject)
    (credentials : AzureCredentials) (configs : AppConfigurations) (msg : String)
    (hcred : getAzureCredentials st (dotenvVars.getD []) processEnv = .ok credentials)
    (hconf : getAppConfigurations pf
      (world.listConfigurationSettings credentials.connectionString) = .ok configs)
    (hfail : getSecretsFromKeyVault world configs.keyVaultReferences = .error msg) :
    loadFromAzure pf world st processEnv dotenvVars = .ok configs.appConfigVars := by
  unfold loadFromAzure
  rw [hcred]
  simp only [hconf, hfail, spreadObj, List.append_nil]

/-- C2 witness: a store with plain entry `B=2` and one reference entry, with a
fully unreachable vault; `loadFromAzure` returns `B=2` only. -/
theorem loadFromAzure_vault_failure_witness :
    loadFromAzure demoRuntime downWorld demoState [] (some []) = .ok [("B", some "2")] :=
  loadFromAzure_vault_failure demoRuntime downWorld demoState [] (some [])
    ⟨"cs"⟩ ⟨[("B", some "2")], [("C", demoInfo)]⟩ "vault unreachable"
    (by decide) (by decide) (by decide)

/-- A reference entry sharing the key `K` with a plain entry. -/
def refEntryK : ConfigurationSetting :=
  ⟨"K", some "\x7b\"uri\":\"https://v.vault.azure.net/secrets/s\"\x7d",
    some "application/vnd.microsoft.appconfig.keyvaultref+json;charset=utf-8"⟩

/-- A world enumerating the key `K` both as a plain entry and as a reference
entry, with a healthy vault. -/
def collisionWorld : AzureWorld :=
  ⟨fun _ => [⟨"K", some "plain", none⟩, refEntryK], fun _ _ _ => .ok (some "s3cret")⟩

/-- C3 counterexample: a key enumerated both as a plain value (`plain`) and as
a resolved secret (`s3cret`); the merged result of `loadFromAzure` maps it to
the secret value, not the plain value, refuting the claimed precedence. -/
theorem loadFromAzure_plain_over_secret_cx :
    getAppConfigurations demoRuntime [⟨"K", some "plain", none⟩, refEntryK] =
      .ok ⟨[("K", some "plain")], [("K", demoInfo)]⟩
    ∧ getSecretsFromKeyVault collisionWorld [("K", demoInfo)] = .ok [("K", some "s3cret")]
    ∧ loadFromAzure demoRuntime collisionWorld demoState [] (some []) =
      .ok [("K", some "plain"), ("K", some "s3cret")]
    ∧ getObj [("K", some "plain"), ("K", some "s3cret")] "K" = some (some "s3cret")
    ∧ some "s3cret" ≠ some "plain" := by
  refine ⟨by decide, by decide, by decide, by decide, by decide⟩

/-- C3 amended: in the merge of `loadFromAzure`, resolved secrets overwrite
plain remote values on key collision (so with the local overlay of
C1, the precedence lowest to highest is: plain remote values, resolved
secrets, locally-parsed values). -/
theorem loadFromAzure_merge_order
    (pf : JsRuntime) (world : AzureWorld) (st : DotenvAzureState)
    (processEnv : VariablesObject) (dotenvVars : Option VariablesObject)
    (credentials : AzureCredentials) (configs : AppConfigurations)
    (secrets : VariablesObject)
    (hcred : getAzureCredentials st (dotenvVars.getD []) processEnv = .ok credentials)
    (hconf : getAppConfigurations pf
      (world.listConfigurationSettings credentials.connectionString) = .ok configs)
    (hsec : getSecretsFromKeyVault world configs.keyVaultReferences = .ok secrets) :
    loadFromAzure pf world st processEnv dotenvVars =
      .ok (spreadObj configs.appConfigVars secrets)
    ∧ (∀ k v, getObj secrets k = some v →
        getObj (spreadObj configs.appConfigVars secrets) k = some v)
    ∧ (∀ k, getObj secrets k = none →
        getObj (spreadObj configs.appConfigVars secrets) k = getObj configs.appConfigVars k) := by
  refine ⟨?_, ?_, ?_⟩
  · unfold loadFromAzure
    rw [hcred]
    simp only [hconf, hsec]
  · intro k v h
    rw [getObj_spreadObj, h]
    rfl
  · intro k h
    rw [getObj_spreadObj, h]
    rfl

/-- C3 amended witness: the collision world again; the merged object holds the
secret value for `K`. -/
theorem loadFromAzure_merge_order_witness :
    loadFromAzure demoRuntime collisionWorld demoState [] (some []) =
      .ok (spreadObj [("K", some "plain")] [("K", some "s3cret")]) :=
  (loadFromAzure_merge_order demoRuntime collisionWorld demoState [] (some [])
    ⟨"cs"⟩ ⟨[("K", some "plain")], [("K", demoInfo)]⟩ [("K", some "s3cret")]
    (by decide) (by decide) (by decide)).1

/-- C4 counterexample: a constructor-supplied connection string is present
(the empty string), yet the resolver does not use it: it falls through to the
ambient environment value. -/
theorem getAzureCredentials_ctor_empty_cx :
    (DotenvAzureState.mk 23 (some "") none none none).connectionString = some ""
    ∧ getAzureCredentials (DotenvAzureState.mk 23 (some "") none none none) []
        [("AZURE_APP_CONFIG_CONNECTION_STRING", some "envcs")] = .ok ⟨"envcs"⟩
    ∧ ("envcs" : String) ≠ "" := by
  refine ⟨rfl, by decide, by decide⟩

/-- C4 amended: the lookup overlays the ambient environment on the local
values (ambient winning ties), and the resulting connection string is the
constructor-supplied one if present and non-empty; otherwise it is the value
of `AZURE_APP_CONFIG_CONNECTION_STRING` in that merged lookup when that value
is non-empty (a missing or empty lookup raising MissingCredentials instead). -/
theorem getAzureCredentials_precedence (st : DotenvAzureState)
    (dotenvVars processEnv : VariablesObject) :
    (∀ s, st.connectionString = some s → s ≠ "" →
      getAzureCredentials st dotenvVars processEnv = .ok ⟨s⟩)
    ∧ (truthy st.connectionString = false →
      ∀ t, jsProp (spreadObj dotenvVars processEnv) "AZURE_APP_CONFIG_CONNECTION_STRING" = some t →
        t ≠ "" → getAzureCredentials st dotenvVars processEnv = .ok ⟨t⟩)
    ∧ (∀ w, getObj processEnv "AZURE_APP_CONFIG_CONNECTION_STRING" = some w →
        jsProp (spreadObj dotenvVars processEnv) "AZURE_APP_CONFIG_CONNECTION_STRING" = w) := by
  refine ⟨?_, ?_, ?_⟩
  · intro s hs hne
    unfold getAzureCredentials jsOr
    rw [hs]
    simp [truthy, hne]
  · intro hf t ht hne
    unfold getAzureCredentials jsOr
    rw [hf]
    simp [ht, hne]
  · intro w hw
    unfold jsProp
    rw [getObj_spreadObj, hw]
    rfl

/-- C4 amended witness: a non-empty constructor connection string wins. -/
theorem getAzureCredentials_precedence_witness :
    getAzureCredentials demoState [] [] = .ok ⟨"cs"⟩ :=
  (getAzureCredentials_precedence demoState [] []).1 "cs" rfl (by decide)

/-- Credential resolution fails with the typed MissingCredentials error when
neither the constructor value nor the merged local/ambient lookup is truthy. -/
theorem getAzureCredentials_missing (st : DotenvAzureState)
    (dotenvVars processEnv : VariablesObject)
    (h1 : truthy st.connectionString = false)
    (h2 : truthy (jsProp (spreadObj dotenvVars processEnv)
      "AZURE_APP_CONFIG_CONNECTION_STRING") = false) :
    getAzureCredentials st dotenvVars processEnv = .error .missingAppConfigCredentials := by
  unfold getAzureCredentials jsOr
  rw [h1]
  cases hp : jsProp (spreadObj dotenvVars processEnv) "AZURE_APP_CONFIG_CONNECTION_STRING" with
  | none => simp [hp]
  | some s =>
    rw [hp] at h2
    simp only [truthy, Bool.not_eq_false', decide_eq_true_eq] at h2
    simp [hp, h2]

/-- C5: when no connection string is found from the constructor, the local
values or the ambient environment, `loadFromAzure` and `config` fail with the
MissingCredentials error, and the result does not depend on the store or vault
oracles at all — no remote client is consulted. -/
theorem missingCredentials_before_any_remote_call
    (st : DotenvAzureState) (processEnv : VariablesObject)
    (dotenvVars : Option VariablesObject)
    (h1 : truthy st.connectionString = false)
    (h2 : truthy (jsProp (spreadObj (dotenvVars.getD []) processEnv)
      "AZURE_APP_CONFIG_CONNECTION_STRING") = false) :
    (∀ pf world, loadFromAzure pf world st processEnv dotenvVars =
      .error .missingAppConfigCredentials)
    ∧ (∀ pf world safe validation, config pf world st processEnv safe dotenvVars validation =
      .error .missingAppConfigCredentials) := by
  have hc := getAzureCredentials_missing st (dotenvVars.getD []) processEnv h1 h2
  constructor
  · intro pf world
    unfold loadFromAzure
    rw [hc]
  · intro pf world safe validation
    unfold config loadFromAzure
    rw [hc]

/-- C5 witness: an instance with no constructor string and an empty
environment fails against the demo oracles. -/
theorem missingCredentials_before_any_remote_call_witness :
    loadFromAzure demoRuntime emptyWorld (DotenvAzureState.mk 23 none none none none) [] none =
      .error .missingAppConfigCredentials :=
  (missingCredentials_before_any_remote_call (DotenvAzureState.mk 23 none none none none)
    [] none (by decide) (by decide)).1 demoRuntime emptyWorld

/-- C6: an entry is classified as a secret reference iff its content type is
byte-for-byte the fixed sentinel; with any other content type the loop body
stores the entry as a plain value for every runtime, never invoking reference
decoding, even when the value would decode. -/
theorem isKeyVaultReference_iff_sentinel (c : ConfigurationSetting) :
    (isKeyVaultReference c = true ↔
      c.contentType =
        some "application/vnd.microsoft.appconfig.keyvaultref+json;charset=utf-8")
    ∧ (c.contentType ≠
        some "application/vnd.microsoft.appconfig.keyvaultref+json;charset=utf-8" →
      ∀ pf acc, processSetting pf acc c =
        .ok ⟨setObj acc.appConfigVars c.key c.value, acc.keyVaultReferences⟩) := by
  constructor
  · simp [isKeyVaultReference]
  · intro hne pf acc
    have hb : isKeyVaultReference c = false := by
      simp [isKeyVaultReference, hne]
    simp [processSetting, hb]

/-- C6 witness: an entry with no content type whose value is decodable JSON
with a `uri` field is still stored as a plain value. -/
theorem isKeyVaultReference_iff_sentinel_witness :
    processSetting demoRuntime ⟨[], []⟩
      ⟨"J", some "\x7b\"uri\":\"https://v.vault.azure.net/secrets/s\"\x7d", none⟩ =
      .ok ⟨[("J", some "\x7b\"uri\":\"https://v.vault.azure.net/secrets/s\"\x7d")], []⟩ :=
  (isKeyVaultReference_iff_sentinel
    ⟨"J", some "\x7b\"uri\":\"https://v.vault.azure.net/secrets/s\"\x7d", none⟩).2
    (by decide) demoRuntime ⟨[], []⟩

/-- The failure condition of reference decoding as the claim words it: the
value fails to parse as JSON with a `uri` field, the `uri` fails to parse as a
URL, or the secret name (the third path segment) is empty or absent. -/
def specReferenceDecodeFails (pf : JsRuntime) (value : Option String) : Bool :=
  match value with
  | none => true
  | some v =>
    if v = "" then true
    else
      match pf.jsonUri v with
      | none => true
      | some uri =>
        match pf.urlParse uri with
        | none => true
        | some u =>
          match (splitSlash u.pathname)[2]? with
          | none => true
          | some name => name = ""

/-- The demo URL table is closed under taking origins: reparsing the origin of
any URL it produces succeeds. -/
theorem demoUrlParse_origin_closed :
    ∀ s u, demoUrlParse s = some u → (demoUrlParse u.origin).isSome = true := by
  intro s u h
  unfold demoUrlParse at h
  split at h
  · cases h
    decide
  · split at h
    · cases h
      decide
    · cases h

/-- Case analysis of the decoder: when the platform can reparse origins, the
decoder fails exactly when the claim's failure condition holds. -/
theorem getKeyVaultReferenceInfo_cases (pf : JsRuntime) (c : ConfigurationSetting)
    (horigin : ∀ s u, pf.urlParse s = some u → (pf.urlParse u.origin).isSome = true) :
    (getKeyVaultReferenceInfo pf c = .error (.invalidKeyVaultUrl c.key)
      ∧ specReferenceDecodeFails pf c.value = true)
    ∨ ((∃ info, getKeyVaultReferenceInfo pf c = .ok info)
      ∧ specReferenceDecodeFails pf c.value = false) := by
  cases hv : c.value with
  | none =>
    left
    constructor
    · unfold getKeyVaultReferenceInfo
      rw [hv]
    · simp [specReferenceDecodeFails, hv]
  | some v =>
    by_cases hve : v = ""
    · left
      constructor
      · unfold getKeyVaultReferenceInfo
        rw [hv]
        simp [hve]
      · simp [specReferenceDecodeFails, hv, hve]
    · cases hj : pf.jsonUri v with
      | none =>
        left
        constructor
        · unfold getKeyVaultReferenceInfo
          rw [hv]
          simp [hve, hj]
        · simp [specReferenceDecodeFails, hv, hve, hj]
      | some uri =>
        cases hu : pf.urlParse uri with
        | none =>
          left
          constructor
          · unfold getKeyVaultReferenceInfo
            rw [hv]
            simp [hve, hj, hu]
          · simp [specReferenceDecodeFails, hv, hve, hj, hu]
        | some u =>
          cases hn : (splitSlash u.pathname)[2]? with
          | none =>
            left
            constructor
            · unfold getKeyVaultReferenceInfo
              rw [hv]
              simp [hve, hj, hu, hn]
            · simp [specReferenceDecodeFails, hv, hve, hj, hu, hn]
          | some name =>
            by_cases hne : name = ""
            · left
              constructor
              · unfold getKeyVaultReferenceInfo
                rw [hv]
                simp [hve, hj, hu, hn, hne]
              · simp [specReferenceDecodeFails, hv, hve, hj, hu, hn, hne]
            · right
              have hsome := horigin uri u hu
              cases hvu : pf.urlParse u.origin with
              | none => rw [hvu] at hsome; exact absurd hsome (by simp)
              | some vu =>
                constructor
                · refine ⟨⟨vu, u, name, (splitSlash u.pathname)[3]?⟩, ?_⟩
                  unfold getKeyVaultReferenceInfo
                  rw [hv]
                  simp [hve, hj, hu, hn, hne, hvu]
                · simp [specReferenceDecodeFails, hv, hve, hj, hu, hn, hne]

/-- C7: with a platform that can reparse origins, decoding a
reference-classified entry raises the InvalidKeyVaultUrl error carrying the
entry's key iff the claim's failure condition holds; every error it raises is
that one; and on success it returns the tuple whose secret name is the third
path segment, secret version the optional fourth segment, and vault origin the
reparsed origin of the secret URL. -/
theorem getKeyVaultReferenceInfo_spec (pf : JsRuntime) (c : ConfigurationSetting)
    (horigin : ∀ s u, pf.urlParse s = some u → (pf.urlParse u.origin).isSome = true) :
    (getKeyVaultReferenceInfo pf c = .error (.invalidKeyVaultUrl c.key) ↔
      specReferenceDecodeFails pf c.value = true)
    ∧ (∀ e, getKeyVaultReferenceInfo pf c = .error e → e = .invalidKeyVaultUrl c.key)
    ∧ (∀ v uri u name vu, c.value = some v → v ≠ "" → pf.jsonUri v = some uri →
        pf.urlParse uri = some u → (splitSlash u.pathname)[2]? = some name → name ≠ "" →
        pf.urlParse u.origin = some vu →
        getKeyVaultReferenceInfo pf c = .ok ⟨vu, u, name, (splitSlash u.pathname)[3]?⟩) := by
  refine ⟨?_, ?_, ?_⟩
  · rcases getKeyVaultReferenceInfo_cases pf c horigin with ⟨he, hf⟩ | ⟨⟨info, hok⟩, hf⟩
    · exact ⟨fun _ => hf, fun _ => he⟩
    · constructor
      · intro he
        rw [hok] at he
        exact absurd he (by simp)
      · intro ht
        rw [hf] at ht
        exact absurd ht (by simp)
  · intro e he
    rcases getKeyVaultReferenceInfo_cases pf c horigin with ⟨he2, _⟩ | ⟨⟨info, hok⟩, _⟩
    · rw [he] at he2
      exact Except.error.inj he2
    · rw [hok] at he
      exact absurd he (by simp)
  · intro v uri u name vu hv hve hj hu hn hne hvu
    unfold getKeyVaultReferenceInfo
    rw [hv]
    simp [hve, hj, hu, hn, hne, hvu]

/-- C7 witness: the demo reference entry decodes to secret name `s`, no
version, against the demo vault origin. -/
theorem getKeyVaultReferenceInfo_spec_witness :
    getKeyVaultReferenceInfo demoRuntime refEntry = .ok demoInfo :=
  (getKeyVaultReferenceInfo_spec demoRuntime refEntry demoUrlParse_origin_closed).2.2
    "\x7b\"uri\":\"https://v.vault.azure.net/secrets/s\"\x7d"
    "https://v.vault.azure.net/secrets/s"
    ⟨"https://v.vault.azure.net/secrets/s", "https://v.vault.azure.net", "/secrets/s"⟩
    "s"
    ⟨"https://v.vault.azure.net/", "https://v.vault.azure.net", "/"⟩
    rfl (by decide) (by decide) (by decide) (by decide) (by decide) (by decide)

/-- Keys of the enumerated entries not classified as references. -/
def plainKeys (entries : List ConfigurationSetting) : List String :=
  (entries.filter (fun c => !isKeyVaultReference c)).map ConfigurationSetting.key

/-- Keys of the enumerated entries classified as references. -/
def refKeys (entries : List ConfigurationSetting) : List String :=
  (entries.filter (fun c => isKeyVaultReference c)).map ConfigurationSetting.key

/-- Loop invariant of `getAppConfigurations`: a key is bound in the plain
(resp. reference) output iff it was bound in the accumulator or enumerated
with the matching classification. -/
theorem appConfigLoop_keys (pf : JsRuntime) :
    ∀ (entries : List ConfigurationSetting) (acc r : AppConfigurations),
      appConfigLoop pf acc entries = .ok r → ∀ k,
      ((getObj r.appConfigVars k).isSome = true ↔
        ((getObj acc.appConfigVars k).isSome = true ∨ k ∈ plainKeys entries))
      ∧ ((getObj r.keyVaultReferences k).isSome = true ↔
        ((getObj acc.keyVaultReferences k).isSome = true ∨ k ∈ refKeys entries)) := by
  intro entries
  induction entries with
  | nil =>
    intro acc r h k
    unfold appConfigLoop at h
    cases h
    simp [plainKeys, refKeys]
  | cons c rest ih =>
    intro acc r h k
    unfold appConfigLoop at h
    cases hps : processSetting pf acc c with
    | error e => rw [hps] at h; cases h
    | ok acc2 =>
      rw [hps] at h
      have hrec := ih acc2 r h k
      unfold processSetting at hps
      by_cases hc : isKeyVaultReference c = true
      · rw [if_pos hc] at hps
        cases hd : getKeyVaultReferenceInfo pf c with
        | error e => rw [hd] at hps; cases hps
        | ok info =>
          rw [hd] at hps
          cases hps
          constructor
          · simpa [plainKeys, List.filter_cons, hc] using hrec.1
          · rw [hrec.2, getObj_setObj]
            by_cases hk : c.key = k
            · simp [hk, refKeys, List.filter_cons, hc, List.mem_cons]
              try tauto
            · simp [hk, refKeys, List.filter_cons, hc, List.mem_cons]
              try tauto
      · rw [if_neg hc] at hps
        cases hps
        constructor
        · rw [hrec.1, getObj_setObj]
          by_cases hk : c.key = k
          · simp [hk, plainKeys, List.filter_cons, hc, List.mem_cons]
            try tauto
          · simp [hk, plainKeys, List.filter_cons, hc, List.mem_cons]
            try tauto
        · simpa [refKeys, List.filter_cons, hc] using hrec.2

/-- Every enumerated key is a plain key or a reference key, and conversely. -/
theorem mem_plainKeys_or_refKeys (entries : List ConfigurationSetting) (k : String) :
    (k ∈ plainKeys entries ∨ k ∈ refKeys entries) ↔
      k ∈ entries.map ConfigurationSetting.key := by
  induction entries with
  | nil => simp [plainKeys, refKeys]
  | cons c rest ih =>
    have hp : plainKeys (c :: rest) =
        if isKeyVaultReference c then plainKeys rest else c.key :: plainKeys rest := by
      by_cases hc : isKeyVaultReference c
      · simp [plainKeys, List.filter_cons, hc]
      · simp [plainKeys, List.filter_cons, hc]
    have hr : refKeys (c :: rest) =
        if isKeyVaultReference c then c.key :: refKeys rest else refKeys rest := by
      by_cases hc : isKeyVaultReference c
      · simp [refKeys, List.filter_cons, hc]
      · simp [refKeys, List.filter_cons, hc]
    rw [List.map_cons, hp, hr]
    by_cases hc : isKeyVaultReference c = true
    · rw [if_pos hc, if_pos hc]
      simp only [List.mem_cons]
      tauto
    · rw [if_neg hc, if_neg hc]
      simp only [List.mem_cons]
      tauto

/-- C8 counterexample: a store enumerating the same key once as a plain entry
and once as a reference entry yields output mappings whose key sets are not
disjoint, refuting the unconditional disjointness claim. -/
theorem getAppConfigurations_disjoint_cx :
    getAppConfigurations demoRuntime [⟨"C", some "p", none⟩, refEntry] =
      .ok ⟨[("C", some "p")], [("C", demoInfo)]⟩
    ∧ (getObj ([("C", some "p")] : VariablesObject) "C").isSome = true
    ∧ (getObj [("C", demoInfo)] "C").isSome = true := by
  refine ⟨by decide, by decide, by decide⟩

/-- C8 amended: the union of the two output key sets always equals the set of
enumerated entry keys; and the two key sets are disjoint provided no key is
enumerated both as a plain entry and as a reference entry (in particular
whenever the enumerated keys are distinct). -/
theorem getAppConfigurations_partition (pf : JsRuntime)
    (entries : List ConfigurationSetting) (r : AppConfigurations)
    (h : getAppConfigurations pf entries = .ok r) :
    (∀ k, ((getObj r.appConfigVars k).isSome = true ∨
        (getObj r.keyVaultReferences k).isSome = true)
      ↔ k ∈ entries.map ConfigurationSetting.key)
    ∧ ((∀ k, ¬(k ∈ plainKeys entries ∧ k ∈ refKeys entries)) →
      ∀ k, ¬((getObj r.appConfigVars k).isSome = true ∧
        (getObj r.keyVaultReferences k).isSome = true)) := by
  have hinv := appConfigLoop_keys pf entries ⟨[], []⟩ r h
  constructor
  · intro k
    have h1 := (hinv k).1
    have h2 := (hinv k).2
    simp only [getObj, Option.isSome_none, Bool.false_eq_true, false_or] at h1 h2
    rw [h1, h2]
    exact mem_plainKeys_or_refKeys entries k
  · intro hdisj k hk
    have h1 := (hinv k).1
    have h2 := (hinv k).2
    simp only [getObj, Option.isSome_none, Bool.false_eq_true, false_or] at h1 h2
    exact hdisj k ⟨h1.mp hk.1, h2.mp hk.2⟩

/-- C8 amended witness: with distinct keys `B` (plain) and `C` (reference),
the union property holds at key `B`. -/
theorem getAppConfigurations_partition_witness :
    ((getObj ([("B", some "2")] : VariablesObject) "B").isSome = true ∨
      (getObj [("C", demoInfo)] "B").isSome = true) ↔
      "B" ∈ [plainEntry, refEntry].map ConfigurationSetting.key :=
  (getAppConfigurations_partition demoRuntime [plainEntry, refEntry]
    ⟨[("B", some "2")], [("C", demoInfo)]⟩ (by decide)).1 "B"

/-- Arithmetic bridge: the rational ceiling the constructor computes (the
model of `Math.ceil(1000 / rateLimit)`) is the natural ceiling division. -/
theorem ceil_thousand_div (r : ℕ) (hr : 0 < r) :
    ⌈(1000 : ℚ) / (r : ℚ)⌉ = (((1000 + r - 1) / r : ℕ) : ℤ) := by
  have hr0 : (0 : ℚ) < (r : ℚ) := by exact_mod_cast hr
  have ha : 1000 + r - 1 = 999 + r := by omega
  have hdm := Nat.div_add_mod (999 + r) r
  have hml : (999 + r) % r < r := Nat.mod_lt _ hr
  have hub : r * ((999 + r) / r) ≤ 999 + r := by omega
  have hlb : 1000 ≤ r * ((999 + r) / r) := by omega
  rw [ha, Int.ceil_eq_iff]
  set n : ℕ := (999 + r) / r with hn
  have hnc : ((n : ℤ) : ℚ) = (n : ℚ) := by push_cast; ring
  rw [hnc]
  constructor
  · rw [lt_div_iff₀ hr0]
    have hcast : (r : ℚ) * (n : ℚ) ≤ 999 + (r : ℚ) := by exact_mod_cast hub
    nlinarith
  · rw [div_le_iff₀ hr0]
    have hcast : (1000 : ℚ) ≤ (r : ℚ) * (n : ℚ) := by exact_mod_cast hlb
    nlinarith

/-- C9: for every positive `rateLimit` `r` supplied at construction (default
45), the configured minimum inter-request interval is `Math.ceil(1000 / r)`,
which equals the exact natural ceiling division `(1000 + r - 1) / r`
milliseconds. -/
theorem keyVaultRateLimitMinTime_spec (opts : DotenvAzureOptions) (r : ℕ)
    (hr : 0 < r) (hopt : opts.rateLimit.getD 45 = r) :
    (mkDotenvAzure opts).keyVaultRateLimitMinTime = Int.ceil ((1000 : ℚ) / (r : ℚ))
    ∧ (mkDotenvAzure opts).keyVaultRateLimitMinTime = (((1000 + r - 1) / r : ℕ) : ℤ) := by
  have h1 : (mkDotenvAzure opts).keyVaultRateLimitMinTime =
      Int.ceil ((1000 : ℚ) / (r : ℚ)) := by
    simp [mkDotenvAzure, hopt]
  exact ⟨h1, h1.trans (ceil_thousand_div r hr)⟩

/-- C9 witness: the default rate limit of 45 requests per second yields a
23 millisecond minimum interval. -/
theorem keyVaultRateLimitMinTime_spec_witness :
    (mkDotenvAzure {}).keyVaultRateLimitMinTime = 23 := by
  have h := (keyVaultRateLimitMinTime_spec {} 45 (by norm_num) rfl).2
  exact h.trans (by decide)

/-- C10: an empty string is indistinguishable from absence at every level of
the credential chain: an empty constructor-supplied connection string is
skipped exactly as if it were absent, and when the merged local/ambient lookup
then also yields nothing or the empty string, MissingCredentials is raised. -/
theorem emptyString_treated_as_absent (st : DotenvAzureState)
    (dotenvVars processEnv : VariablesObject) :
    (st.connectionString = some "" →
      getAzureCredentials st dotenvVars processEnv =
        getAzureCredentials { st with connectionString := none } dotenvVars processEnv)
    ∧ ((st.connectionString = none ∨ st.connectionString = some "") →
      (jsProp (spreadObj dotenvVars processEnv) "AZURE_APP_CONFIG_CONNECTION_STRING" = none ∨
        jsProp (spreadObj dotenvVars processEnv) "AZURE_APP_CONFIG_CONNECTION_STRING" = some "") →
      getAzureCredentials st dotenvVars processEnv = .error .missingAppConfigCredentials) := by
  constructor
  · intro h
    unfold getAzureCredentials jsOr
    rw [h]
    simp [truthy]
  · intro h1 h2
    apply getAzureCredentials_missing
    · rcases h1 with h1 | h1 <;> simp [truthy, h1]
    · rcases h2 with h2 | h2 <;> simp [truthy, h2]

/-- C10 witness: an instance built with the empty connection string and an
empty environment raises MissingCredentials. -/
theorem emptyString_treated_as_absent_witness :
    getAzureCredentials (DotenvAzureState.mk 23 (some "") none none none) [] [] =
      .error .missingAppConfigCredentials :=
  (emptyString_treated_as_absent (DotenvAzureState.mk 23 (some "") none none none) [] []).2
    (Or.inr rfl) (Or.inl rfl)

end DotenvAzure
